import Mathlib

/-!
Verification of the signal-processing core of the shunt-sound analysis app
(src/app.py), shallowly embedded in Lean 4.

Machine floats are modelled as exact rationals (ℚ); real-valued spectral
magnitudes (outputs of complex modulus) are modelled in ℝ.
-/

/-- A magnitude spectrum: the pair of arrays returned by
`perform_fft_analysis` and consumed by the band-ratio block of `main`
(app.py lines 368-393).  `frequencies` in Hz, `magnitudes` dimensionless. -/
structure Spectrum where
  frequencies : List ℚ
  magnitudes : List ℚ
deriving DecidableEq

/-- `low_freq_mask = (frequencies >= 0) & (frequencies <= 500)` followed by
`magnitude[low_freq_mask].sum() if low_freq_mask.any() else 0`
(app.py lines 368, 371).  An empty selection sums to 0 either way. -/
def lowPower (s : Spectrum) : ℚ :=
  let sel := (((s.frequencies.zip s.magnitudes).filter
      (fun p => decide (0 ≤ p.1) && decide (p.1 ≤ 500))).map Prod.snd)
  if sel.isEmpty then 0 else sel.sum

/-- `high_freq_mask = (frequencies >= 1000) & (frequencies <= 3000)` followed by
`magnitude[high_freq_mask].sum() if high_freq_mask.any() else 0`
(app.py lines 369, 372). -/
def highPower (s : Spectrum) : ℚ :=
  let sel := (((s.frequencies.zip s.magnitudes).filter
      (fun p => decide (1000 ≤ p.1) && decide (p.1 ≤ 3000))).map Prod.snd)
  if sel.isEmpty then 0 else sel.sum

/-- `total_power = low_power + high_power` (app.py line 374). -/
def totalPower (s : Spectrum) : ℚ := lowPower s + highPower s

/-- app.py lines 375-379:
`if total_power > 0: low_ratio = (low_power / total_power) * 100;
high_ratio = (high_power / total_power) * 100 else: low_ratio = high_ratio = 0`.
First component is the low-band percentage, second the high-band percentage. -/
def bandRatioPair (s : Spectrum) : ℚ × ℚ :=
  if 0 < totalPower s then
    (lowPower s / totalPower s * 100, highPower s / totalPower s * 100)
  else (0, 0)

/-- The three display verdicts of app.py lines 388-393. -/
inductive Verdict
  | normalLeaning
  | stenosisLeaning
  | mixed
deriving DecidableEq

/-- app.py lines 388-393: `if low_ratio > 70: ... elif high_ratio > 40: ...
else: ...`, first match wins. -/
def classifyVerdict (low high : ℚ) : Verdict :=
  if 70 < low then .normalLeaning
  else if 40 < high then .stenosisLeaning
  else .mixed

/-- The verdict `main` displays for a given spectrum: the verdict rule applied
to the two band percentages. -/
def spectrumVerdict (s : Spectrum) : Verdict :=
  classifyVerdict (bandRatioPair s).1 (bandRatioPair s).2

/-- Sample encodings `scipy.io.wavfile.read` can return and that
`load_audio_data` distinguishes: signed 16- and 32-bit integers and the two
floating widths (dtype checks, app.py lines 62-65). -/
inductive SampleDtype
  | i16
  | i32
  | f32
  | f64
deriving DecidableEq

/-- The array `wavfile.read` yields (app.py line 55): one-dimensional for a
mono file, or two-dimensional with one row per time index and one column per
channel.  Sample values are exact rationals; the numpy dtype travels as a tag
beside the data. -/
inductive AudioArray
  | mono (dtype : SampleDtype) (samples : List ℚ)
  | multi (dtype : SampleDtype) (frames : List (List ℚ))
deriving DecidableEq

/-- Result dtype of `ndarray.mean(axis=1)`: numpy promotes integer inputs to
float64 and keeps floating inputs at their own width. -/
def meanDtype : SampleDtype → SampleDtype
  | .f32 => .f32
  | _ => .f64

/-- app.py lines 58-59: `if len(audio_data.shape) > 1:
audio_data = audio_data.mean(axis=1)` — a multi-channel array is collapsed by
the arithmetic mean across channels at each time index, and the array dtype
becomes the mean's dtype. -/
def collapseToMono : AudioArray → SampleDtype × List ℚ
  | .mono dt xs => (dt, xs)
  | .multi dt frames =>
      (meanDtype dt, frames.map (fun fr => fr.sum / (fr.length : ℚ)))

/-- `load_audio_data` (app.py lines 50-67) after a successful
`wavfile.read`: collapse to mono, then `if audio_data.dtype == np.int16:
... / 32768.0 elif audio_data.dtype == np.int32: ... / 2147483648.0`, else
pass the samples through.  The dtype test happens AFTER the mono collapse,
on the collapsed array's dtype. -/
def loadAudioData (sampleRate : ℕ) (a : AudioArray) : ℕ × List ℚ :=
  let md := collapseToMono a
  if md.1 = .i16 then (sampleRate, md.2.map (fun v => v / 32768))
  else if md.1 = .i32 then (sampleRate, md.2.map (fun v => v / 2147483648))
  else (sampleRate, md.2)

/-- `np.fft.fftfreq(n, d)` (app.py line 77, called with `d = 1/sample_rate`):
entry k is k/(n*d) for k below ceil(n/2) and (k-n)/(n*d) on the mirrored
negative-frequency half. -/
def fftfreq (n : ℕ) (d : ℚ) : List ℚ :=
  (List.range n).map (fun k =>
    if k < (n + 1) / 2 then (k : ℚ) / (n * d) else ((k : ℚ) - n) / (n * d))

/-- Coefficient j of `np.fft.fft(audio_data)` (app.py line 76): the discrete
Fourier transform X_j equal to the sum over k of x_k exp(-2 pi i j k / n). -/
noncomputable def fftCoeff (x : List ℚ) (j : ℕ) : ℂ :=
  ∑ k ∈ Finset.range x.length,
    ((x.getD k 0 : ℚ) : ℂ) *
      Complex.exp (-(2 * (Real.pi : ℂ) * Complex.I * j * k) / x.length)

/-- `np.fft.fft(audio_data)` (app.py line 76): n complex coefficients for an
n-sample input. -/
noncomputable def fft (x : List ℚ) : List ℂ :=
  (List.range x.length).map (fftCoeff x)

/-- `perform_fft_analysis` (app.py lines 70-84): FFT of the full sample
sequence, `fftfreq(n, 1/sample_rate)`, then both arrays indexed by the same
`positive_mask = frequencies >= 0`; magnitudes are `np.abs` of the retained
complex coefficients. -/
noncomputable def performFftAnalysis (sampleRate : ℕ) (x : List ℚ) :
    List ℚ × List ℝ :=
  let n := x.length
  let frequencies := fftfreq n (1 / (sampleRate : ℚ))
  let magnitude := (fft x).map Complex.abs
  let kept := (frequencies.zip magnitude).filter (fun p => decide (0 ≤ p.1))
  (kept.map Prod.fst, kept.map Prod.snd)

/-- `NFFT=1024`: the spectrogram analysis window length passed to
`ax.specgram` (app.py line 151). -/
def NFFT : ℕ := 1024

/-- `noverlap=512`: the overlap between successive windows (app.py line 152). -/
def noverlap : ℕ := 512

/-- Hop between window starts, `NFFT - noverlap` in matplotlib's
`mlab._spectral_helper`. -/
def hopSize : ℕ := NFFT - noverlap

/-- matplotlib `mlab._spectral_helper`: input shorter than one window is
extended to NFFT samples with zeros (`np.resize` followed by zeroing the
tail), so a short waveform is padded rather than rejected. -/
def padToWindow (x : List ℚ) : List ℚ :=
  if x.length < NFFT then x ++ List.replicate (NFFT - x.length) 0 else x

/-- Number of analysis windows: `len(np.arange(0, len(x) - NFFT + 1, step))`
over the (possibly padded) input. -/
def numSlices (x : List ℚ) : ℕ := ((padToWindow x).length - NFFT) / hopSize + 1

/-- `np.fft.rfftfreq(n, d)`: the one-sided frequency axis k/(n*d) for
k = 0..n/2, used by the spectrogram with `d = 1/Fs`. -/
def rfftfreq (n : ℕ) (d : ℚ) : List ℚ :=
  (List.range (n / 2 + 1)).map (fun k : ℕ => (k : ℚ) / (n * d))

/-- `np.hanning(NFFT)`, matplotlib's default `window_hanning`:
0.5 - 0.5 cos(2 pi m / (M - 1)). -/
noncomputable def hanningWindow (m : ℕ) : ℝ :=
  1 / 2 - 1 / 2 * Real.cos (2 * Real.pi * m / ((NFFT : ℝ) - 1))

/-- `(np.abs(window) ** 2).sum()`: the PSD window normalization. -/
noncomputable def windowNormSq : ℝ :=
  ∑ m ∈ Finset.range NFFT, hanningWindow m ^ 2

/-- Windowed DFT coefficient at bin k of the NFFT-sample segment starting at
index `start` of the padded input. -/
noncomputable def stftCoeff (x : List ℚ) (start k : ℕ) : ℂ :=
  ∑ m ∈ Finset.range NFFT,
    ((x.getD (start + m) 0 : ℚ) : ℂ) * (hanningWindow m : ℝ) *
      Complex.exp (-(2 * (Real.pi : ℂ) * Complex.I * k * m) / NFFT)

/-- One-sided power spectral density of a segment (`mode='psd'`,
`scale_by_freq=True`): squared modulus over window norm and Fs, doubled away
from DC and Nyquist. -/
noncomputable def psdValue (fs : ℕ) (x : List ℚ) (start k : ℕ) : ℝ :=
  Complex.abs (stftCoeff x start k) ^ 2 / (windowNormSq * (fs : ℝ)) *
    (if 0 < k ∧ k < NFFT / 2 then 2 else 1)

/-- `10 * np.log10(spec)`: the dB intensity `ax.specgram` displays
(`scale='dB'` default for PSD mode); `vmin=-80`/`vmax=0` saturate only the
color mapping. -/
noncomputable def dbValue (fs : ℕ) (x : List ℚ) (start k : ℕ) : ℝ :=
  10 * Real.logb 10 (psdValue fs x start k)

/-- The time/frequency/intensity grid `plot_spectrogram` puts on screen.
`intensity` has one row per displayed frequency bin, one column per time
bin, matching matplotlib's (freqs, times) layout. -/
structure Spectrogram where
  timeBins : List ℚ
  freqBins : List ℚ
  intensity : List (List ℝ)

/-- `plot_spectrogram` (app.py lines 139-159): `ax.specgram(audio_data,
Fs=sample_rate, NFFT=1024, noverlap=512, vmin=-80, vmax=0)` followed by
`ax.set_ylim(0, 3000)`.  Window midpoints give the time axis; the
`set_ylim(0, 3000)` call restricts the displayed grid to the frequency rows
inside [0, 3000] Hz (the transform computes the full one-sided axis up to
Fs/2 internally). -/
noncomputable def plotSpectrogram (fs : ℕ) (x : List ℚ) : Spectrogram :=
  let xp := padToWindow x
  let slices := numSlices x
  let allFreqs := rfftfreq NFFT (1 / (fs : ℚ))
  let rows := (List.range (NFFT / 2 + 1)).map
    (fun k => (List.range slices).map (fun i => dbValue fs xp (i * hopSize) k))
  let kept := (allFreqs.zip rows).filter
    (fun p => decide (0 ≤ p.1) && decide (p.1 ≤ 3000))
  { timeBins := (List.range slices).map
      (fun i => (((i * hopSize : ℕ) : ℚ) + (NFFT : ℚ) / 2) / (fs : ℚ))
    freqBins := kept.map Prod.fst
    intensity := kept.map Prod.snd }

theorem bandRatioPair_of_total_eq_zero (s : Spectrum) (h : totalPower s = 0) :
    bandRatioPair s = (0, 0) := by
  unfold bandRatioPair
  rw [if_neg]
  rw [h]
  exact lt_irrefl 0

/-- C2: whenever the total band energy is strictly positive, the two
percentages are 100 * low_power / total and 100 * high_power / total, and they
sum to exactly 100. -/
theorem c2_sum_100 (s : Spectrum) (h : 0 < totalPower s) :
    (bandRatioPair s).1 = 100 * lowPower s / totalPower s ∧
    (bandRatioPair s).2 = 100 * highPower s / totalPower s ∧
    (bandRatioPair s).1 + (bandRatioPair s).2 = 100 := by
  have ht : totalPower s ≠ 0 := ne_of_gt h
  have htot : totalPower s = lowPower s + highPower s := rfl
  unfold bandRatioPair
  rw [if_pos h]
  refine ⟨by ring, by ring, ?_⟩
  field_simp
  linarith [htot]

theorem c2_sum_100_witness :
    0 < totalPower ⟨[100, 2000], [3, 1]⟩ ∧
    (bandRatioPair ⟨[100, 2000], [3, 1]⟩).1 +
      (bandRatioPair ⟨[100, 2000], [3, 1]⟩).2 = 100 :=
  ⟨by norm_num [totalPower, lowPower, highPower, List.zip, List.zipWith, List.filter_cons], (c2_sum_100 ⟨[100, 2000], [3, 1]⟩ (by norm_num [totalPower, lowPower, highPower, List.zip, List.zipWith, List.filter_cons])).2.2⟩

/-- C3: when the total energy in the two bands is zero, both percentages are
the explicit value 0 (the division is guarded by the `total_power > 0` test,
so no undefined value arises). -/
theorem c3_zero_total (s : Spectrum) (h : totalPower s = 0) :
    bandRatioPair s = (0, 0) :=
  bandRatioPair_of_total_eq_zero s h

theorem c3_zero_total_witness :
    totalPower ⟨[700], [5]⟩ = 0 ∧ bandRatioPair ⟨[700], [5]⟩ = (0, 0) :=
  ⟨by norm_num [totalPower, lowPower, highPower, List.zip, List.zipWith, List.filter_cons], c3_zero_total ⟨[700], [5]⟩ (by norm_num [totalPower, lowPower, highPower, List.zip, List.zipWith, List.filter_cons])⟩

/-- C4: the verdict is decided by exactly three rules in order, first match
winning: low > 70 gives NORMAL_LEANING, otherwise high > 40 gives
STENOSIS_LEANING, otherwise MIXED; with the three concrete instances
(80,10), (30,50), (50,20). -/
theorem c4_verdict_rules (low high : ℚ) :
    (70 < low → classifyVerdict low high = .normalLeaning) ∧
    (low ≤ 70 → 40 < high → classifyVerdict low high = .stenosisLeaning) ∧
    (low ≤ 70 → high ≤ 40 → classifyVerdict low high = .mixed) ∧
    classifyVerdict 80 10 = .normalLeaning ∧
    classifyVerdict 30 50 = .stenosisLeaning ∧
    classifyVerdict 50 20 = .mixed := by
  refine ⟨?_, ?_, ?_, by norm_num [classifyVerdict], by norm_num [classifyVerdict],
    by norm_num [classifyVerdict]⟩
  · intro h1
    unfold classifyVerdict
    rw [if_pos h1]
  · intro h1 h2
    unfold classifyVerdict
    rw [if_neg (not_lt.mpr h1), if_pos h2]
  · intro h1 h2
    unfold classifyVerdict
    rw [if_neg (not_lt.mpr h1), if_neg (not_lt.mpr h2)]

theorem c4_verdict_rules_witness :
    70 < (80 : ℚ) ∧ classifyVerdict 80 10 = .normalLeaning :=
  ⟨by norm_num, (c4_verdict_rules 80 10).1 (by norm_num)⟩

/-- C10: for a spectrum with zero total band energy both percentages default
to 0, so neither threshold rule fires and the displayed verdict is the MIXED
fallback. -/
theorem c10_zero_energy_mixed (s : Spectrum) (h : totalPower s = 0) :
    spectrumVerdict s = .mixed := by
  unfold spectrumVerdict
  rw [bandRatioPair_of_total_eq_zero s h]
  norm_num [classifyVerdict]

theorem c10_zero_energy_mixed_witness :
    totalPower ⟨[], []⟩ = 0 ∧ spectrumVerdict ⟨[], []⟩ = .mixed :=
  ⟨by norm_num [totalPower, lowPower, highPower, List.zip, List.zipWith, List.filter_cons], c10_zero_energy_mixed ⟨[], []⟩ (by norm_num [totalPower, lowPower, highPower, List.zip, List.zipWith, List.filter_cons])⟩

/-- C1 counterexample: a stereo int16 input with identical channels does NOT
load to the same waveform as the mono input of that channel.  The mean over
channels turns the array into float64, so the int16 normalization branch is
skipped: the stereo path keeps the raw value 16384 while the mono path
returns 16384 / 32768 = 1/2. -/
theorem c1_stereo_int16_differs :
    (loadAudioData 48000 (.multi .i16 [[16384, 16384]])).2 = [(16384 : ℚ)] ∧
    (loadAudioData 48000 (.mono .i16 [16384])).2 = [(1 / 2 : ℚ)] ∧
    loadAudioData 48000 (.multi .i16 [[16384, 16384]]) ≠
      loadAudioData 48000 (.mono .i16 [16384]) := by
  refine ⟨?_, ?_, ?_⟩ <;>
    simp [loadAudioData, collapseToMono, meanDtype] <;> norm_num

/-- C1 (amended): for floating-point encoded input, a stereo signal with
identical left and right channels loads to exactly the same (sample rate,
samples) pair as the mono input of that single channel: the mean of two equal
samples is that sample and float samples pass through unnormalized.  (For
integer encodings the claim fails: the mono collapse produces a float array
and the integer normalization of the mono path is skipped.) -/
theorem c1_stereo_mono_float_noop (sampleRate : ℕ) (xs : List ℚ) :
    loadAudioData sampleRate (.multi .f64 (xs.map (fun v => [v, v]))) =
      loadAudioData sampleRate (.mono .f64 xs) ∧
    loadAudioData sampleRate (.multi .f32 (xs.map (fun v => [v, v]))) =
      loadAudioData sampleRate (.mono .f32 xs) := by
  have h : ((fun fr : List ℚ => fr.sum / (fr.length : ℚ)) ∘ fun v : ℚ => [v, v])
      = id := by
    funext v
    simp [Function.comp_def]
  constructor <;>
    simp [loadAudioData, collapseToMono, meanDtype, List.map_map, h]

/-- C7 counterexample: a decoded stereo int16 input whose samples are not
divided by 32768 (the mono collapse makes the array float64 first, so the
int16 branch never fires), leaving a sample far outside [-1, 1]. -/
theorem c7_stereo_int16_not_divided :
    (loadAudioData 8000 (.multi .i16 [[2048, 2048]])).2 = [(2048 : ℚ)] ∧
    (2048 : ℚ) ≠ 2048 / 32768 := by
  refine ⟨?_, ?_⟩
  · simp [loadAudioData, collapseToMono, meanDtype]
  · norm_num

/-- C7 (amended): for single-channel (mono) decoded input the normalization
is exactly as specified: int16 samples are divided by 32768, int32 samples by
2147483648, floating samples pass through unchanged; and int16 samples in the
machine range [-32768, 32767] land in [-1, 1]. -/
theorem c7_mono_normalization (sampleRate : ℕ) (xs : List ℚ) :
    (loadAudioData sampleRate (.mono .i16 xs)).2 = xs.map (fun v => v / 32768) ∧
    (loadAudioData sampleRate (.mono .i32 xs)).2 =
      xs.map (fun v => v / 2147483648) ∧
    (loadAudioData sampleRate (.mono .f32 xs)).2 = xs ∧
    (loadAudioData sampleRate (.mono .f64 xs)).2 = xs ∧
    ((∀ v ∈ xs, -32768 ≤ v ∧ v ≤ 32767) →
      ∀ y ∈ (loadAudioData sampleRate (.mono .i16 xs)).2, -1 ≤ y ∧ y ≤ 1) := by
  refine ⟨by simp [loadAudioData, collapseToMono],
    by simp [loadAudioData, collapseToMono],
    by simp [loadAudioData, collapseToMono],
    by simp [loadAudioData, collapseToMono], ?_⟩
  intro hrange y hy
  simp [loadAudioData, collapseToMono] at hy
  obtain ⟨v, hv, rfl⟩ := hy
  obtain ⟨hlo, hhi⟩ := hrange v hv
  constructor
  · rw [le_div_iff₀ (by norm_num : (0 : ℚ) < 32768)]
    linarith
  · rw [div_le_iff₀ (by norm_num : (0 : ℚ) < 32768)]
    linarith

theorem c7_mono_normalization_witness :
    (∀ v ∈ [(-32768 : ℚ), 16384, 32767], -32768 ≤ v ∧ v ≤ 32767) ∧
    ∀ y ∈ (loadAudioData 8000 (.mono .i16 [(-32768 : ℚ), 16384, 32767])).2,
      -1 ≤ y ∧ y ≤ 1 :=
  ⟨by norm_num,
    (c7_mono_normalization 8000 [(-32768 : ℚ), 16384, 32767]).2.2.2.2
      (by norm_num)⟩

/-- Filtering `List.range n` by the bound m keeps exactly `List.range m`. -/
theorem range_filter_lt (n m : ℕ) (h : m ≤ n) :
    (List.range n).filter (fun k => decide (k < m)) = List.range m := by
  induction n with
  | zero =>
      have : m = 0 := Nat.le_zero.mp h
      simp [this]
  | succ n ih =>
      rcases Nat.lt_or_ge m (n + 1) with hm | hm
      · have hmn : m ≤ n := Nat.lt_succ_iff.mp hm
        rw [List.range_succ, List.filter_append, ih hmn]
        have : ¬ n < m := Nat.not_lt.mpr hmn
        simp [this]
      · have : m = n + 1 := Nat.le_antisymm h hm
        subst this
        apply List.filter_eq_self.mpr
        intro a ha
        simpa using List.mem_range.mp ha

/-- The retained frequency axis of `perform_fft_analysis`: exactly the bins
k * sample_rate / n for k = 0, ..., ceil(n/2) - 1, because the fftfreq values
on the first half are nonnegative and the mirrored half is negative. -/
theorem performFft_fst (sampleRate : ℕ) (x : List ℚ) (hsr : 0 < sampleRate) :
    (performFftAnalysis sampleRate x).1 =
      (List.range ((x.length + 1) / 2)).map
        (fun k : ℕ => (k : ℚ) * sampleRate / x.length) := by
  have hsrq : (0 : ℚ) < sampleRate := by exact_mod_cast hsr
  simp only [performFftAnalysis, fftfreq, fft, List.map_map]
  rw [List.zip_map', List.filter_map, List.map_map]
  simp only [Function.comp_def]
  have hcong : ∀ a ∈ List.range x.length,
      (decide (0 ≤ if a < (x.length + 1) / 2
          then (a : ℚ) / ((x.length : ℚ) * (1 / (sampleRate : ℚ)))
          else ((a : ℚ) - x.length) / ((x.length : ℚ) * (1 / (sampleRate : ℚ))))) =
        decide (a < (x.length + 1) / 2) := by
    intro a ha
    have han : a < x.length := List.mem_range.mp ha
    have hnq : (0 : ℚ) < (x.length : ℚ) * (1 / (sampleRate : ℚ)) := by
      have : (0 : ℚ) < x.length := by exact_mod_cast Nat.zero_lt_of_lt han
      positivity
    apply decide_eq_decide.mpr
    by_cases hcase : a < (x.length + 1) / 2
    · rw [if_pos hcase]
      exact iff_of_true (by positivity) hcase
    · rw [if_neg hcase]
      refine iff_of_false (not_le.mpr ?_) hcase
      apply div_neg_of_neg_of_pos _ hnq
      have : (a : ℚ) < x.length := by exact_mod_cast han
      linarith
  rw [List.filter_congr hcong, range_filter_lt _ _ (by omega)]
  apply List.map_congr_left
  intro a ha
  rw [if_pos (List.mem_range.mp ha)]
  rw [mul_one_div, div_div_eq_mul_div]

/-- C6: for every non-empty waveform the spectrum has as many frequencies as
magnitudes (both arrays are indexed by the same positive-frequency mask), and
the frequency axis is sorted non-decreasing. -/
theorem c6_spectrum_invariants (sampleRate : ℕ) (x : List ℚ)
    (hsr : 0 < sampleRate) (hx : 0 < x.length) :
    (performFftAnalysis sampleRate x).1.length =
      (performFftAnalysis sampleRate x).2.length ∧
    List.Sorted (· ≤ ·) (performFftAnalysis sampleRate x).1 := by
  constructor
  · simp only [performFftAnalysis]
    rw [List.length_map, List.length_map]
  · rw [performFft_fst sampleRate x hsr]
    rw [List.Sorted, List.pairwise_map]
    apply (List.sorted_lt_range _).imp
    intro a b hab
    have hc : (a : ℚ) ≤ (b : ℚ) := by exact_mod_cast le_of_lt hab
    gcongr

/-- C9: `perform_fft_analysis` retains exactly the bins k * sample_rate / N
for k = 0, ..., ceil(N/2) - 1; DC (0 Hz) is among them, and for even N the
Nyquist frequency sample_rate/2 is not (it sits on the negative-frequency
half of fftfreq and is filtered out). -/
theorem c9_retained_bins (sampleRate : ℕ) (x : List ℚ)
    (hsr : 0 < sampleRate) (hx : 0 < x.length) :
    (performFftAnalysis sampleRate x).1 =
      (List.range ((x.length + 1) / 2)).map
        (fun k : ℕ => (k : ℚ) * sampleRate / x.length) ∧
    (0 : ℚ) ∈ (performFftAnalysis sampleRate x).1 ∧
    (x.length % 2 = 0 →
      ((sampleRate : ℚ) / 2) ∉ (performFftAnalysis sampleRate x).1) := by
  refine ⟨performFft_fst sampleRate x hsr, ?_, ?_⟩
  · rw [performFft_fst sampleRate x hsr]
    apply List.mem_map.mpr
    refine ⟨0, ?_, by simp⟩
    apply List.mem_range.mpr
    omega
  · intro heven hmem
    rw [performFft_fst sampleRate x hsr] at hmem
    obtain ⟨k, hk, hval⟩ := List.mem_map.mp hmem
    have hkm : k < (x.length + 1) / 2 := List.mem_range.mp hk
    have hn : (0 : ℚ) < (x.length : ℚ) := by exact_mod_cast hx
    have hs : (0 : ℚ) < (sampleRate : ℚ) := by exact_mod_cast hsr
    have hval2 : (k : ℚ) * sampleRate * 2 = sampleRate * x.length := by
      field_simp at hval
      linarith
    have hcancel : (sampleRate : ℚ) * (2 * k) = (sampleRate : ℚ) * x.length := by
      linear_combination hval2
    have hq : ((2 * k : ℕ) : ℚ) = (x.length : ℚ) := by
      push_cast
      exact_mod_cast mul_left_cancel₀ (ne_of_gt hs) hcancel
    have hnat : 2 * k = x.length := by exact_mod_cast hq
    omega

theorem c6_witness :
    0 < 8000 ∧ 0 < ([1, 2, 3, 4] : List ℚ).length ∧
    ((performFftAnalysis 8000 [1, 2, 3, 4]).1.length =
        (performFftAnalysis 8000 [1, 2, 3, 4]).2.length ∧
      List.Sorted (· ≤ ·) (performFftAnalysis 8000 [1, 2, 3, 4]).1) :=
  ⟨by decide, by decide,
    c6_spectrum_invariants 8000 [1, 2, 3, 4] (by decide) (by decide)⟩

theorem c9_witness :
    0 < 8 ∧ 0 < ([1, 0, 1, 0] : List ℚ).length ∧
    ([1, 0, 1, 0] : List ℚ).length % 2 = 0 ∧
    (0 : ℚ) ∈ (performFftAnalysis 8 [1, 0, 1, 0]).1 ∧
    ((8 : ℕ) : ℚ) / 2 ∉ (performFftAnalysis 8 [1, 0, 1, 0]).1 :=
  ⟨by decide, by decide, by decide,
    (c9_retained_bins 8 [1, 0, 1, 0] (by decide) (by decide)).2.1,
    (c9_retained_bins 8 [1, 0, 1, 0] (by decide) (by decide)).2.2 (by decide)⟩

/-- C5 (amended): `plot_spectrogram` does not fail on input shorter than one
window; a 1023-sample waveform is zero-padded to the 1024-sample window and,
like an exactly 1024-sample waveform, yields a spectrogram with exactly one
time bin (window 1024 samples, overlap 512). -/
theorem c5_one_time_bin (fs : ℕ) (x : List ℚ)
    (h : x.length = 1023 ∨ x.length = 1024) :
    (plotSpectrogram fs x).timeBins.length = 1 := by
  have hp : (padToWindow x).length = 1024 := by
    rcases h with h | h <;> simp [padToWindow, h, NFFT]
  simp [plotSpectrogram, numSlices, hp, hopSize, NFFT, noverlap]

theorem c5_one_time_bin_witness :
    ((List.replicate 1024 (0 : ℚ)).length = 1023 ∨
      (List.replicate 1024 (0 : ℚ)).length = 1024) ∧
    (plotSpectrogram 8000 (List.replicate 1024 0)).timeBins.length = 1 :=
  ⟨Or.inr (by rw [List.length_replicate]),
    c5_one_time_bin 8000 _ (Or.inr (by rw [List.length_replicate]))⟩

/-- C5 counterexample: on a waveform of exactly 1023 = W-1 samples the
spectrogram builder does NOT fail with an error — matplotlib zero-pads the
input to one full window and returns a spectrogram with one time bin. -/
theorem c5_len_1023_succeeds :
    (List.replicate 1023 (0 : ℚ)).length = 1023 ∧
    (plotSpectrogram 8000 (List.replicate 1023 0)).timeBins.length = 1 := by
  refine ⟨by rw [List.length_replicate], ?_⟩
  have gen : ∀ y : List ℚ, y.length = 1023 →
      (plotSpectrogram 8000 y).timeBins.length = 1 := by
    intro y hy
    have hp : (padToWindow y).length = 1024 := by
      simp [padToWindow, hy, NFFT]
    simp [plotSpectrogram, numSlices, hp, hopSize, NFFT, noverlap]
  exact gen _ (by rw [List.length_replicate])

/-- C8: every frequency bin of the returned spectrogram grid is at most
3000 Hz, and the intensity grid has exactly one row per retained frequency
bin — rows above 3000 Hz are computed by the transform but excluded from the
returned grid by the `set_ylim(0, 3000)` restriction. -/
theorem c8_freq_axis_restricted (fs : ℕ) (x : List ℚ) :
    (∀ f ∈ (plotSpectrogram fs x).freqBins, f ≤ 3000) ∧
    (plotSpectrogram fs x).intensity.length =
      (plotSpectrogram fs x).freqBins.length := by
  constructor
  · intro f hf
    simp only [plotSpectrogram] at hf
    obtain ⟨p, hp, rfl⟩ := List.mem_map.mp hf
    have hpred := List.of_mem_filter hp
    simp only [Bool.and_eq_true, decide_eq_true_eq] at hpred
    exact hpred.2
  · simp only [plotSpectrogram, List.length_map]

theorem c8_witness :
    (0 : ℚ) ∈ (plotSpectrogram 1024 []).freqBins ∧ (0 : ℚ) ≤ 3000 := by
  have h0 : (0 : ℚ) ∈ (plotSpectrogram 1024 []).freqBins := by
    simp only [plotSpectrogram, rfftfreq]
    rw [List.zip_map']
    apply List.mem_map.mpr
    refine ⟨((0 : ℚ) / ((NFFT : ℚ) * (1 / ((1024 : ℕ) : ℚ))),
      (List.range (numSlices [])).map
        (fun i => dbValue 1024 (padToWindow []) (i * hopSize) 0)), ?_, by norm_num⟩
    apply List.mem_filter.mpr
    constructor
    · apply List.mem_map.mpr
      exact ⟨0, List.mem_range.mpr (by norm_num), by norm_num⟩
    · norm_num
  exact ⟨h0, (c8_freq_axis_restricted 1024 []).1 0 h0⟩
